import Mathlib

/-!
Verification of the plotting script `plot.py` of the srpt-improve repository.

The script reads a semicolon-delimited text file, classifies each stripped
non-blank line by its first character (`'n'`/`'r'` are special, anything else
is a numeric data row), extracts per-column series, computes improvement
ratios `1 - sek/srpt` against the column-1 reference series, and issues one
`plt.plot` call per column index `1 .. len(names)-1` with a label obtained by
`names[col].replace("SRPTExcept", "SEK")` and a linestyle `dots[col-1]`.

The embedding below mirrors that pipeline.  Python floats are modelled as
rationals (`ℚ`); the Python runtime errors the straight-line script can raise
(ValueError from `float(...)`, TypeError from dividing strings,
ZeroDivisionError from a zero denominator, IndexError from list indexing,
AttributeError from `.replace` on a non-string, AssertionError from the
extension assert) are modelled with an explicit error type threaded through
`Except`.  Evaluation order of the embedding follows the statement order of
the script, so the error produced on a failing input is the one Python would
raise first.
-/

/-- The Python runtime errors the script can raise. -/
inductive PError where
  | valueError
  | typeError
  | zeroDivisionError
  | indexError
  | attributeError
  | assertionError
deriving DecidableEq, Repr

/-- A parsed field: `float(...)`-converted numeric cell, or a verbatim string
cell from an `'r'`-marked row. -/
inductive Cell where
  | num : ℚ → Cell
  | str : String → Cell
deriving DecidableEq, Repr

/-- A parsed line of the input file, as appended to `data`. -/
abbrev Row := List Cell

/-- Value of a list of decimal digit characters, `none` on a non-digit.
Accumulator-style, mirroring positional reading left to right. -/
def digitsVal (acc : Nat) : List Char → Option Nat
  | [] => some acc
  | c :: cs =>
    if c.isDigit then digitsVal (acc * 10 + (c.toNat - 48)) cs else none

/-- Models Python `float(s)` on plain decimal literals (optional sign,
digits, optional single decimal point): the only float syntax the data files
of this repository use.  Returns `none` where `float` raises ValueError. -/
def parseDecimal (s : String) : Option ℚ :=
  let cs := s.toList
  let signed : Bool × List Char :=
    match cs with
    | '-' :: rest => (true, rest)
    | '+' :: rest => (false, rest)
    | _ => (false, cs)
  let ip := signed.2.takeWhile (fun c => c ≠ '.')
  let rest := signed.2.dropWhile (fun c => c ≠ '.')
  let fp : Option (List Char) :=
    match rest with
    | [] => some []
    | '.' :: tl => if tl.contains '.' then none else some tl
    | _ :: _ => none
  match fp with
  | none => none
  | some frac =>
    if ip.isEmpty && frac.isEmpty then none
    else
      match digitsVal 0 ip, digitsVal 0 frac with
      | some a, some b =>
        let mag : ℚ := (a : ℚ) + (b : ℚ) / ((10 : ℚ) ^ frac.length)
        some (if signed.1 then -mag else mag)
      | _, _ => none

/-- `[float(l) for l in fields]`: all fields converted, or `none` as soon as
one raises ValueError. -/
def parseRow : List String → Option (List ℚ)
  | [] => some []
  | f :: fs =>
    match parseDecimal f, parseRow fs with
    | some q, some qs => some (q :: qs)
    | _, _ => none

/-- The parsing loop of `plot.py` (lines 10-15): strip each line; a non-blank
line whose first character is neither `'n'` nor `'r'` is split on `';'` and
float-converted; a non-blank line starting with `'r'` is split and kept as
strings; every other line (blank, or starting with `'n'`) is skipped. -/
def parseData : List String → Except PError (List Row)
  | [] => .ok []
  | l :: ls =>
    let t := l.trim
    if t ≠ "" ∧ t.front ≠ 'n' ∧ t.front ≠ 'r' then
      match parseRow (t.splitOn ";") with
      | some qs =>
        match parseData ls with
        | .ok rows => .ok ((qs.map Cell.num) :: rows)
        | .error e => .error e
      | none => .error .valueError
    else if t ≠ "" ∧ t.front = 'r' then
      match parseData ls with
      | .ok rows => .ok (((t.splitOn ";").map Cell.str) :: rows)
      | .error e => .error e
    else parseData ls

/-- The hard-coded linestyle list `dots` of `plot.py` line 23. -/
def dots : List String := ["-", "--", "-.", "--", "-", "-", "-", "-", "-"]

/-- Equality of `Except` values is decidable when both components' is; used to
evaluate the embedding on concrete inputs. -/
instance exceptDecEq {ε α : Type} [DecidableEq ε] [DecidableEq α] :
    DecidableEq (Except ε α)
  | .ok a, .ok b => decidable_of_iff (a = b) (by simp)
  | .error a, .error b => decidable_of_iff (a = b) (by simp)
  | .ok _, .error _ => isFalse (by simp)
  | .error _, .ok _ => isFalse (by simp)

/-- Python list indexing `row[i]`: IndexError when out of range. -/
def getCell (row : Row) (i : Nat) : Except PError Cell :=
  match row.get? i with
  | some c => .ok c
  | none => .error .indexError

/-- List-comprehension style traversal: evaluates elements left to right and
stops at the first raised error. -/
def exMapM (f : α → Except PError β) : List α → Except PError (List β)
  | [] => .ok []
  | a :: as =>
    match f a with
    | .error e => .error e
    | .ok b =>
      match exMapM f as with
      | .error e => .error e
      | .ok bs => .ok (b :: bs)

/-- `[row[i] for row in nums]`. -/
def column (nums : List Row) (i : Nat) : Except PError (List Cell) :=
  exMapM (fun row => getCell row i) nums

/-- One element of the comprehension `1 - sek/srpt`: numeric cells divide
(ZeroDivisionError on a zero denominator); any string operand raises
TypeError, exactly as Python `/` on `str` does. -/
def ratioOf (sek srpt : Cell) : Except PError ℚ :=
  match sek, srpt with
  | .num a, .num b =>
    if b = 0 then .error .zeroDivisionError else .ok (1 - a / b)
  | _, _ => .error .typeError

/-- `ratios = [1 - sek/srpt for (sek, srpt) in zip(seks, srpts)]`: pairwise
left-to-right over both columns, truncating at the shorter one exactly as
`zip` does, stopping at the first raised error. -/
def ratios : List Cell → List Cell → Except PError (List ℚ)
  | sek :: seks, srpt :: srpts =>
    match ratioOf sek srpt with
    | .error e => .error e
    | .ok q =>
      match ratios seks srpts with
      | .error e => .error e
      | .ok qs => .ok (q :: qs)
  | _, _ => .ok []

/-- `names[col].replace("SRPTExcept", "SEK")`: IndexError past the end,
AttributeError when the cell is a float, substring replacement on a string. -/
def cellLabel (c : Option Cell) : Except PError String :=
  match c with
  | none => .error .indexError
  | some (.num _) => .error .attributeError
  | some (.str s) => .ok (s.replace "SRPTExcept" "SEK")

/-- Arguments of one `plt.plot(rhos, ratios, label=name, linestyle=dots[col-1])`
call. -/
structure PlotCall where
  rhos : List Cell
  ratioSeries : List ℚ
  label : String
  linestyle : String
deriving DecidableEq, Repr

/-- One iteration of the plotting loop (lines 24-29) at column `col`:
`seks = [row[col] for row in nums]`, the ratio comprehension, the relabelled
name, and the `plt.plot` call which indexes `dots[col-1]`. -/
def plotCol (names : Row) (nums : List Row) (srpts rhos : List Cell)
    (col : Nat) : Except PError PlotCall :=
  match column nums col with
  | .error e => .error e
  | .ok seks =>
    match ratios seks srpts with
    | .error e => .error e
    | .ok rs =>
      match cellLabel (names.get? col) with
      | .error e => .error e
      | .ok label =>
        match dots.get? (col - 1) with
        | none => .error .indexError
        | some style => .ok ⟨rhos, rs, label, style⟩

/-- Lines 19-29 of the script on an already parsed `data`:
`names = data[0]` (IndexError on an empty table), `nums = data[1:]`,
`rhos = [row[0] for row in nums]`, `srpts = [row[1] for row in nums]`,
then one plot call for each `col in range(1, len(names))`. -/
def runTable (data : List Row) : Except PError (List PlotCall) :=
  match data with
  | [] => .error .indexError
  | names :: nums =>
    match column nums 0 with
    | .error e => .error e
    | .ok rhos =>
      match column nums 1 with
      | .error e => .error e
      | .ok srpts =>
        exMapM (plotCol names nums srpts rhos) (List.range' 1 (names.length - 1))

/-- The whole script on an output name and the input file's lines: the
`assert outname.endswith(".eps")` runs before the file is read, then the
parse loop, then the transform/plot loop.  The result is the sequence of
`plt.plot` calls issued. -/
def run (outname : String) (lines : List String) : Except PError (List PlotCall) :=
  if outname.endsWith ".eps" then
    match parseData lines with
    | .error e => .error e
    | .ok data => runTable data
  else .error .assertionError

/-- A small concrete input file: header row (first character `'r'`, kept as a
string row), one numeric data row. -/
def linesA : List String := ["rho;SRPT;X", "0.8;2;1"]

/-- The parsed header row of `linesA`. -/
def namesA : Row := [Cell.str "rho", Cell.str "SRPT", Cell.str "X"]

/-- The parsed data rows of `linesA`. -/
def numsA : List Row := [[Cell.num (4/5), Cell.num 2, Cell.num 1]]

/-- The plot calls the script issues on `linesA`. -/
def plotsA : List PlotCall :=
  [⟨[Cell.num (4/5)], [0], "SRPT", "-"⟩,
   ⟨[Cell.num (4/5)], [(1:ℚ)/2], "X", "--"⟩]

/-- A concrete input file whose last column is named `SRPTExcept`. -/
def linesB : List String := ["rho;SRPT;SRPTExcept", "0.8;2;1"]

/-- The parsed header row of `linesB`. -/
def namesB : Row := [Cell.str "rho", Cell.str "SRPT", Cell.str "SRPTExcept"]

/-- The parsed data rows of `linesB`. -/
def numsB : List Row := [[Cell.num (4/5), Cell.num 2, Cell.num 1]]

/-- The plot calls the script issues on `linesB`: the `SRPTExcept` column is
labelled `SEK`. -/
def plotsB : List PlotCall :=
  [⟨[Cell.num (4/5)], [0], "SRPT", "-"⟩,
   ⟨[Cell.num (4/5)], [(1:ℚ)/2], "SEK", "--"⟩]

/-! ### Basic inversion lemmas about the embedding -/

theorem exMapM_ok_length {α β : Type} {f : α → Except PError β} {xs : List α}
    {ys : List β} (h : exMapM f xs = .ok ys) : ys.length = xs.length := by
  induction xs generalizing ys with
  | nil =>
    simp only [exMapM] at h
    cases h
    rfl
  | cons a as ih =>
    simp only [exMapM] at h
    split at h
    · exact absurd h (by simp)
    · split at h
      · exact absurd h (by simp)
      · rename_i b _ bs hbs
        cases h
        simp [ih hbs]

theorem exMapM_ok_get {α β : Type} {f : α → Except PError β} {xs : List α}
    {ys : List β} (h : exMapM f xs = .ok ys) :
    ∀ i x, xs.get? i = some x → ∃ y, ys.get? i = some y ∧ f x = .ok y := by
  induction xs generalizing ys with
  | nil => intro i x hx; simp at hx
  | cons a as ih =>
    simp only [exMapM] at h
    cases hfa : f a with
    | error e => simp [hfa] at h
    | ok b =>
      simp only [hfa] at h
      cases hbs : exMapM f as with
      | error e => simp [hbs] at h
      | ok bs =>
        simp only [hbs] at h
        cases h
        intro i x hx
        cases i with
        | zero =>
          simp only [List.get?] at hx
          cases hx
          exact ⟨b, rfl, hfa⟩
        | succ n =>
          simp only [List.get?] at hx ⊢
          exact ih hbs n x hx

theorem getCell_ok_iff {row : Row} {i : Nat} {c : Cell} :
    getCell row i = .ok c ↔ row.get? i = some c := by
  unfold getCell
  cases h : row.get? i <;> simp

theorem column_ok_length {nums : List Row} {i : Nat} {cs : List Cell}
    (h : column nums i = .ok cs) : cs.length = nums.length :=
  exMapM_ok_length h

theorem column_ok_get {nums : List Row} {i : Nat} {cs : List Cell}
    (h : column nums i = .ok cs) :
    ∀ j row, nums.get? j = some row → ∃ c, cs.get? j = some c ∧ row.get? i = some c := by
  intro j row hrow
  obtain ⟨c, hc, hget⟩ := exMapM_ok_get h j row hrow
  exact ⟨c, hc, getCell_ok_iff.mp hget⟩

theorem ratioOf_ok {s r : Cell} {q : ℚ} (h : ratioOf s r = .ok q) :
    ∃ a b, s = Cell.num a ∧ r = Cell.num b ∧ b ≠ 0 ∧ q = 1 - a / b := by
  cases s with
  | str u => simp [ratioOf] at h
  | num a =>
    cases r with
    | str u => simp [ratioOf] at h
    | num b =>
      simp only [ratioOf] at h
      split at h
      · exact absurd h (by simp)
      · rename_i hb
        cases h
        exact ⟨a, b, rfl, rfl, hb, rfl⟩

theorem ratios_ok_length {seks srpts : List Cell} {rs : List ℚ}
    (h : ratios seks srpts = .ok rs) :
    rs.length = min seks.length srpts.length := by
  induction seks generalizing srpts rs with
  | nil =>
    simp only [ratios] at h
    cases h
    simp
  | cons s0 ss ih =>
    cases srpts with
    | nil =>
      simp only [ratios] at h
      cases h
      simp
    | cons r0 rr =>
      simp only [ratios] at h
      cases hro : ratioOf s0 r0 with
      | error e => rw [hro] at h; simp at h
      | ok q =>
        rw [hro] at h
        cases hrest : ratios ss rr with
        | error e => rw [hrest] at h; simp at h
        | ok bs =>
          rw [hrest] at h
          cases h
          simp only [List.length_cons, ih hrest]
          omega

theorem ratios_ok_get {seks srpts : List Cell} {rs : List ℚ}
    (h : ratios seks srpts = .ok rs) :
    ∀ i s r, seks.get? i = some s → srpts.get? i = some r →
      ∃ a b, s = Cell.num a ∧ r = Cell.num b ∧ b ≠ 0 ∧ rs.get? i = some (1 - a / b) := by
  induction seks generalizing srpts rs with
  | nil => intro i s r hs; simp at hs
  | cons s0 ss ih =>
    intro i s r hs hr
    cases srpts with
    | nil => simp at hr
    | cons r0 rr =>
      simp only [ratios] at h
      cases hro : ratioOf s0 r0 with
      | error e => rw [hro] at h; simp at h
      | ok q =>
        rw [hro] at h
        cases hrest : ratios ss rr with
        | error e => rw [hrest] at h; simp at h
        | ok bs =>
          rw [hrest] at h
          cases h
          cases i with
          | zero =>
            simp only [List.get?] at hs hr
            cases hs; cases hr
            obtain ⟨a, b, rfl, rfl, hb, rfl⟩ := ratioOf_ok hro
            exact ⟨a, b, rfl, rfl, hb, rfl⟩
          | succ n =>
            simp only [List.get?] at hs hr ⊢
            exact ih hrest n s r hs hr

theorem cellLabel_ok {o : Option Cell} {lab : String} (h : cellLabel o = .ok lab) :
    ∃ s, o = some (Cell.str s) ∧ lab = s.replace "SRPTExcept" "SEK" := by
  match o with
  | none => simp [cellLabel] at h
  | some (.num q) => simp [cellLabel] at h
  | some (.str s) =>
    simp only [cellLabel] at h
    cases h
    exact ⟨s, rfl, rfl⟩

theorem plotCol_ok {names : Row} {nums : List Row} {srpts rhos : List Cell}
    {col : Nat} {p : PlotCall} (h : plotCol names nums srpts rhos col = .ok p) :
    ∃ seks rs lab style, column nums col = .ok seks ∧ ratios seks srpts = .ok rs ∧
      cellLabel (names.get? col) = .ok lab ∧ dots.get? (col - 1) = some style ∧
      p = ⟨rhos, rs, lab, style⟩ := by
  unfold plotCol at h
  split at h
  · exact absurd h (by simp)
  · rename_i seks hseks
    split at h
    · exact absurd h (by simp)
    · rename_i rs hrs
      split at h
      · exact absurd h (by simp)
      · rename_i lab hlab
        split at h
        · exact absurd h (by simp)
        · rename_i style hstyle
          cases h
          exact ⟨seks, rs, lab, style, hseks, hrs, hlab, hstyle, rfl⟩

theorem runTable_ok {names : Row} {nums : List Row} {plots : List PlotCall}
    (h : runTable (names :: nums) = .ok plots) :
    ∃ rhos srpts, column nums 0 = .ok rhos ∧ column nums 1 = .ok srpts ∧
      exMapM (plotCol names nums srpts rhos) (List.range' 1 (names.length - 1)) = .ok plots := by
  simp only [runTable] at h
  cases hrhos : column nums 0 with
  | error e => simp [hrhos] at h
  | ok rhos =>
    simp only [hrhos] at h
    cases hsrpts : column nums 1 with
    | error e => simp [hsrpts] at h
    | ok srpts =>
      simp only [hsrpts] at h
      exact ⟨rhos, srpts, rfl, rfl, h⟩

theorem run_ok {outname : String} {lines : List String} {plots : List PlotCall}
    (h : run outname lines = .ok plots) :
    outname.endsWith ".eps" = true ∧
      ∃ data, parseData lines = .ok data ∧ runTable data = .ok plots := by
  unfold run at h
  split at h
  · rename_i hext
    refine ⟨hext, ?_⟩
    split at h
    · exact absurd h (by simp)
    · rename_i data hdata
      exact ⟨data, hdata, h⟩
  · exact absurd h (by simp)

theorem ratios_self_of_num (l : List Cell)
    (h : ∀ c ∈ l, ∃ q, c = Cell.num q ∧ q ≠ 0) :
    ratios l l = .ok (List.replicate l.length 0) := by
  induction l with
  | nil => rfl
  | cons c cs ih =>
    obtain ⟨q, rfl, hq⟩ := h c (List.mem_cons_self c cs)
    have htail := ih (fun x hx => h x (List.mem_cons_of_mem _ hx))
    simp only [ratios, ratioOf, if_neg hq, htail, List.length_cons,
      List.replicate_succ, div_self hq, sub_self]

theorem ratios_self_ok_eq {l : List Cell} {rs : List ℚ}
    (h : ratios l l = .ok rs) : rs = List.replicate l.length 0 := by
  induction l generalizing rs with
  | nil =>
    simp only [ratios] at h
    cases h
    rfl
  | cons c cs ih =>
    simp only [ratios] at h
    cases hro : ratioOf c c with
    | error e => rw [hro] at h; simp at h
    | ok q =>
      rw [hro] at h
      cases hrest : ratios cs cs with
      | error e => rw [hrest] at h; simp at h
      | ok bs =>
        rw [hrest] at h
        cases h
        obtain ⟨a, b, hca, hcb, hb, hqv⟩ := ratioOf_ok hro
        have hab : a = b := by
          rw [hca] at hcb
          exact Cell.num.inj hcb
        have hq0 : q = 0 := by
          rw [hqv, hab, div_self hb]
          ring
        have hbs : bs = List.replicate cs.length 0 := ih hrest
        simp [hq0, hbs, List.replicate_succ]

theorem ratios_zero_denom : ∀ (seks srpts : List Cell),
    seks.length = srpts.length →
    (∀ s ∈ seks, ∃ a, s = Cell.num a) →
    (∀ r ∈ srpts, ∃ b, r = Cell.num b) →
    Cell.num 0 ∈ srpts →
    ratios seks srpts = .error .zeroDivisionError := by
  intro seks
  induction seks with
  | nil =>
    intro srpts hlen _ _ hz
    cases srpts with
    | nil => simp at hz
    | cons r rr => simp at hlen
  | cons s0 ss ih =>
    intro srpts hlen hs hr hz
    cases srpts with
    | nil => simp at hz
    | cons r0 rr =>
      obtain ⟨a, rfl⟩ := hs s0 (List.mem_cons_self s0 ss)
      obtain ⟨b, rfl⟩ := hr r0 (List.mem_cons_self r0 rr)
      by_cases hb : b = 0
      · simp [ratios, ratioOf, hb]
      · have hzr : Cell.num 0 ∈ rr := by
          rcases List.mem_cons.mp hz with hz0 | hztail
          · exact absurd (Cell.num.inj hz0.symm) hb
          · exact hztail
        have htail := ih rr (by simpa using hlen)
          (fun s hsm => hs s (List.mem_cons_of_mem _ hsm))
          (fun r hrm => hr r (List.mem_cons_of_mem _ hrm)) hzr
        simp [ratios, ratioOf, hb, htail]

/-- Master inversion: a successful run issues `names.length - 1` plot calls,
and the `j`-th one is the result of `plotCol` at column `1 + j` against the
extracted reference (`srpts`) and x-axis (`rhos`) columns. -/
theorem run_ok_col {outname : String} {lines : List String} {plots : List PlotCall}
    {names : Row} {nums : List Row}
    (hrun : run outname lines = .ok plots)
    (hdata : parseData lines = .ok (names :: nums)) :
    plots.length = names.length - 1 ∧
    ∃ rhos srpts, column nums 0 = .ok rhos ∧ column nums 1 = .ok srpts ∧
      ∀ j p, plots.get? j = some p →
        plotCol names nums srpts rhos (1 + j) = .ok p := by
  obtain ⟨hext, data, hdata2, htab⟩ := run_ok hrun
  rw [hdata] at hdata2
  cases hdata2
  obtain ⟨rhos, srpts, h0, h1, hmap⟩ := runTable_ok htab
  have hlen := exMapM_ok_length hmap
  rw [List.length_range'] at hlen
  refine ⟨hlen, rhos, srpts, h0, h1, ?_⟩
  intro j p hp
  have hj : j < plots.length := by
    rcases List.get?_eq_some.mp hp with ⟨hlt, _⟩
    exact hlt
  have hidx : (List.range' 1 (names.length - 1)).get? j = some (1 + j) := by
    rw [List.get?_range' _ _ (by omega : j < names.length - 1)]
    norm_num
  obtain ⟨p', hp', hcol⟩ := exMapM_ok_get hmap j (1 + j) hidx
  rw [hp] at hp'
  cases hp'
  exact hcol

/-! ### Claims -/

/-- C1: for a successful run on a parsed table, the plotted series of every
comparison column `c` (2 ≤ c < header length) is, index for index with the
data rows and the x-axis column, `ratio[i] = 1 - data[i][c] / data[i][1]`,
with length equal to the number of data rows and no reordering. -/
theorem ratio_series_pointwise (outname : String) (lines : List String)
    (plots : List PlotCall) (names : Row) (nums : List Row)
    (hrun : run outname lines = .ok plots)
    (hdata : parseData lines = .ok (names :: nums))
    (c : Nat) (hc2 : 2 ≤ c) (hclt : c < names.length) :
    ∃ p, plots.get? (c - 1) = some p ∧
      p.ratioSeries.length = nums.length ∧
      ∀ i, i < nums.length → ∃ row a b,
        nums.get? i = some row ∧
        row.get? c = some (Cell.num a) ∧
        row.get? 1 = some (Cell.num b) ∧
        b ≠ 0 ∧
        p.ratioSeries.get? i = some (1 - a / b) ∧
        p.rhos.get? i = row.get? 0 := by
  obtain ⟨hlen, rhos, srpts, hrhos, hsrpts, hcols⟩ := run_ok_col hrun hdata
  obtain ⟨p, hp⟩ : ∃ p, plots.get? (c - 1) = some p := by
    cases hg : plots.get? (c - 1) with
    | none =>
      rw [List.get?_eq_none] at hg
      omega
    | some p => exact ⟨p, rfl⟩
  have hc1 : 1 + (c - 1) = c := by omega
  have hcol := hcols (c - 1) p hp
  rw [hc1] at hcol
  obtain ⟨seks, rs, lab, style, hseks, hrs, hlab, hstyle, rfl⟩ := plotCol_ok hcol
  refine ⟨⟨rhos, rs, lab, style⟩, hp, ?_, ?_⟩
  · have := ratios_ok_length hrs
    rw [column_ok_length hseks, column_ok_length hsrpts, Nat.min_self] at this
    exact this
  · intro i hi
    obtain ⟨row, hrow⟩ : ∃ row, nums.get? i = some row := by
      cases hg : nums.get? i with
      | none =>
        rw [List.get?_eq_none] at hg
        omega
      | some row => exact ⟨row, rfl⟩
    obtain ⟨s, hs, hsrow⟩ := column_ok_get hseks i row hrow
    obtain ⟨r, hr, hrrow⟩ := column_ok_get hsrpts i row hrow
    obtain ⟨a, b, rfl, rfl, hb, hval⟩ := ratios_ok_get hrs i s r hs hr
    obtain ⟨x, hx, hxrow⟩ := column_ok_get hrhos i row hrow
    refine ⟨row, a, b, hrow, hsrow, hrrow, hb, hval, ?_⟩
    rw [hx, hxrow]

/-- C1 witness: the theorem applied to the concrete file `linesA` at
comparison column 2. -/
theorem ratio_series_pointwise_witness :
    run "o.eps" linesA = .ok plotsA ∧
    parseData linesA = .ok (namesA :: numsA) ∧
    2 ≤ 2 ∧ 2 < namesA.length ∧
    (∃ p, plotsA.get? (2 - 1) = some p ∧
      p.ratioSeries.length = numsA.length ∧
      ∀ i, i < numsA.length → ∃ row a b,
        numsA.get? i = some row ∧
        row.get? 2 = some (Cell.num a) ∧
        row.get? 1 = some (Cell.num b) ∧
        b ≠ 0 ∧
        p.ratioSeries.get? i = some (1 - a / b) ∧
        p.rhos.get? i = row.get? 0) :=
  ⟨by with_unfolding_all decide, by with_unfolding_all decide,
   by decide, by with_unfolding_all decide,
   ratio_series_pointwise "o.eps" linesA plotsA namesA numsA
     (by with_unfolding_all decide) (by with_unfolding_all decide) 2
     (by decide) (by with_unfolding_all decide)⟩

/-- C2 counterexample: on a 3-column header the script plots 2 series, not
`3 - 2 = 1`, and the reference column `SRPT` is itself plotted. -/
theorem plotted_count_cex :
    (run "o.eps" ["rho;SRPT;X", "0.8;2;1"]).map List.length = .ok 2 ∧
    (run "o.eps" ["rho;SRPT;X", "0.8;2;1"]).map (List.map PlotCall.label) =
      .ok ["SRPT", "X"] ∧
    (["rho", "SRPT", "X"] : List String).length - 2 = 1 := by
  refine ⟨?_, ?_, ?_⟩ <;> with_unfolding_all decide

/-- C2 amended: the number of plotted series equals header length − 1 —
columns 1 through header length − 1 are plotted, the reference column
included. -/
theorem plotted_series_count (outname : String) (lines : List String)
    (plots : List PlotCall) (names : Row) (nums : List Row)
    (hrun : run outname lines = .ok plots)
    (hdata : parseData lines = .ok (names :: nums)) :
    plots.length = names.length - 1 :=
  (run_ok_col hrun hdata).1

/-- C2 witness: on `linesA` (header length 3) the script issues 2 plot
calls. -/
theorem plotted_series_count_witness :
    run "o.eps" linesA = .ok plotsA ∧
    parseData linesA = .ok (namesA :: numsA) ∧
    plotsA.length = namesA.length - 1 :=
  ⟨by with_unfolding_all decide, by with_unfolding_all decide,
   plotted_series_count "o.eps" linesA plotsA namesA numsA
     (by with_unfolding_all decide) (by with_unfolding_all decide)⟩

/-- C3 counterexample: a data row with reference value 0 makes the run abort
with ZeroDivisionError (Python float division by zero raises); no non-finite
value is produced or passed to the renderer. -/
theorem zero_reference_cex :
    run "o.eps" ["rho;SRPT;X", "0.8;0;1"] = .error .zeroDivisionError := by
  with_unfolding_all decide

/-- C3 amended: on all-numeric columns, a zero reference value makes the
ratio computation raise ZeroDivisionError, aborting the run. -/
theorem zero_reference_divzero (nums : List Row) (seks srpts : List Cell)
    (col : Nat)
    (hseks : column nums col = .ok seks) (hsrpts : column nums 1 = .ok srpts)
    (hnums : ∀ s ∈ seks, ∃ a, s = Cell.num a)
    (hnumr : ∀ r ∈ srpts, ∃ b, r = Cell.num b)
    (hzero : Cell.num 0 ∈ srpts) :
    ratios seks srpts = .error .zeroDivisionError := by
  apply ratios_zero_denom _ _ ?_ hnums hnumr hzero
  rw [column_ok_length hseks, column_ok_length hsrpts]

/-- C3 witness: the amended theorem at a concrete one-row table whose
reference entry is 0. -/
theorem zero_reference_divzero_witness :
    column [[Cell.num (4/5), Cell.num 0, Cell.num 1]] 2 = .ok [Cell.num 1] ∧
    column [[Cell.num (4/5), Cell.num 0, Cell.num 1]] 1 = .ok [Cell.num 0] ∧
    ratios [Cell.num 1] [Cell.num 0] = .error .zeroDivisionError :=
  ⟨by with_unfolding_all decide, by with_unfolding_all decide,
   zero_reference_divzero [[Cell.num (4/5), Cell.num 0, Cell.num 1]] _ _ 2
     (by with_unfolding_all decide) (by with_unfolding_all decide)
     (by intro s hs; simp at hs; exact ⟨1, hs⟩)
     (by intro r hr; simp at hr; exact ⟨0, hr⟩)
     (by simp)⟩

/-- C4 counterexample: a line starting with `'n'` is not stored at all — the
parsed table of a file with header `name;1;2` contains only the numeric row,
so the header line is not the first row of the table. -/
theorem header_n_dropped_cex :
    parseData ["name;1;2", "0.8;2;1"] =
      .ok [[Cell.num (4/5), Cell.num 2, Cell.num 1]] := by
  with_unfolding_all decide

/-- C4 amended: a non-blank line whose first character is `'n'` is skipped
entirely (like a blank line) and contributes no row to the table; column
names come from `data[0]`, the first kept line. -/
theorem header_n_skipped (l : String) (ls : List String)
    (h1 : l.trim ≠ "") (h2 : l.trim.front = 'n') :
    parseData (l :: ls) = parseData ls := by
  have hc1 : ¬(l.trim ≠ "" ∧ l.trim.front ≠ 'n' ∧ l.trim.front ≠ 'r') :=
    fun hc => hc.2.1 h2
  have hc2 : ¬(l.trim ≠ "" ∧ l.trim.front = 'r') := by
    intro hc
    rw [h2] at hc
    exact absurd hc.2 (by decide)
  simp only [parseData, if_neg hc1, if_neg hc2]

/-- C4 witness: the amended theorem at the concrete header line
`name;1;2`. -/
theorem header_n_skipped_witness :
    "name;1;2".trim ≠ "" ∧ "name;1;2".trim.front = 'n' ∧
    parseData ["name;1;2", "0.8;2;1"] = parseData ["0.8;2;1"] :=
  ⟨by with_unfolding_all decide, by with_unfolding_all decide,
   header_n_skipped "name;1;2" ["0.8;2;1"] (by with_unfolding_all decide)
     (by with_unfolding_all decide)⟩

/-- C5 counterexample: an `'r'` row in the middle of the data is NOT ignored
by the transform — the same file without it runs fine, with it the run
aborts with a TypeError (string cells reach the division). -/
theorem r_row_mid_table_cex :
    run "o.eps" ["rho;SRPT;X", "0.8;2;1", "r;a;b"] = .error .typeError ∧
    run "o.eps" ["rho;SRPT;X", "0.8;2;1"] =
      .ok [⟨[Cell.num (4/5)], [0], "SRPT", "-"⟩,
           ⟨[Cell.num (4/5)], [(1:ℚ)/2], "X", "--"⟩] := by
  constructor <;> with_unfolding_all decide

/-- C5 amended: a non-blank `'r'` line is kept in the table as a row of
strings; it is harmless only as the header (`data[0]`) — when it lands among
the data rows its string cells reach the ratio computation, whose division
raises a TypeError instead of ignoring the row. -/
theorem r_row_kept_strings :
    (∀ (l : String) (ls : List String), l.trim ≠ "" → l.trim.front = 'r' →
      parseData (l :: ls) =
        (parseData ls).map
          (fun rows => ((l.trim.splitOn ";").map Cell.str) :: rows)) ∧
    (∀ s t : String, ratioOf (Cell.str s) (Cell.str t) = .error .typeError) := by
  constructor
  · intro l ls h1 h2
    have hc1 : ¬(l.trim ≠ "" ∧ l.trim.front ≠ 'n' ∧ l.trim.front ≠ 'r') :=
      fun hc => hc.2.2 h2
    simp only [parseData, if_neg hc1, if_pos (And.intro h1 h2)]
    cases h : parseData ls <;> simp [Except.map]
  · intro s t
    rfl

/-- C5 witness: the amended theorem at the concrete line `r;a;b` and at
concrete string cells. -/
theorem r_row_kept_strings_witness :
    parseData ["r;a;b", "0.8;2"] =
      (parseData ["0.8;2"]).map
        (fun rows => (("r;a;b".trim.splitOn ";").map Cell.str) :: rows) ∧
    ratioOf (Cell.str "a") (Cell.str "a") = .error .typeError :=
  ⟨r_row_kept_strings.1 "r;a;b" ["0.8;2"] (by with_unfolding_all decide)
     (by with_unfolding_all decide),
   r_row_kept_strings.2 "a" "a"⟩

/-- C6: when the output name does not end in `.eps`, the run fails with the
assertion error regardless of the input lines — before any parsing and
before the input file is consulted at all. -/
theorem extension_check_first (outname : String) (lines : List String)
    (h : outname.endsWith ".eps" = false) :
    run outname lines = .error .assertionError := by
  unfold run
  rw [h]
  simp

/-- C6 witness: a `.png` output name aborts on an arbitrary (even malformed)
input. -/
theorem extension_check_first_witness :
    "out.png".endsWith ".eps" = false ∧
    run "out.png" ["garbage"] = .error .assertionError :=
  ⟨by with_unfolding_all decide,
   extension_check_first "out.png" ["garbage"] (by with_unfolding_all decide)⟩

/-- C7: every plotted series is labelled with its header column name after
replacing the substring `SRPTExcept` by `SEK`. -/
theorem legend_label_rewrite (outname : String) (lines : List String)
    (plots : List PlotCall) (names : Row) (nums : List Row)
    (hrun : run outname lines = .ok plots)
    (hdata : parseData lines = .ok (names :: nums)) :
    ∀ j p, plots.get? j = some p →
      ∃ s, names.get? (1 + j) = some (Cell.str s) ∧
        p.label = s.replace "SRPTExcept" "SEK" := by
  obtain ⟨-, rhos, srpts, -, -, hcols⟩ := run_ok_col hrun hdata
  intro j p hp
  obtain ⟨seks, rs, lab, style, -, -, hlab, -, rfl⟩ := plotCol_ok (hcols j p hp)
  obtain ⟨s, hso, hslab⟩ := cellLabel_ok hlab
  exact ⟨s, hso, hslab⟩

/-- C7 witness: on `linesB` the column literally named `SRPTExcept` is
displayed as `SEK`, and the unrelated name `SRPT` is unchanged. -/
theorem legend_label_rewrite_witness :
    run "o.eps" linesB = .ok plotsB ∧
    parseData linesB = .ok (namesB :: numsB) ∧
    (∃ s, namesB.get? (1 + 1) = some (Cell.str s) ∧
      ("SEK" : String) = s.replace "SRPTExcept" "SEK") ∧
    "SRPTExcept".replace "SRPTExcept" "SEK" = "SEK" ∧
    "SRPT".replace "SRPTExcept" "SEK" = "SRPT" :=
  ⟨by with_unfolding_all decide, by with_unfolding_all decide,
   legend_label_rewrite "o.eps" linesB plotsB namesB numsB
     (by with_unfolding_all decide) (by with_unfolding_all decide) 1
     ⟨[Cell.num (4/5)], [(1:ℚ)/2], "SEK", "--"⟩ (by with_unfolding_all decide),
   by with_unfolding_all decide, by with_unfolding_all decide⟩

/-- C8 counterexample: with 11 header columns (10 plotted) the run aborts
with an IndexError on the 9-entry `dots` list — the palette is indexed
directly, not cyclically, so the table is not rendered. -/
theorem palette_not_cyclic_cex :
    run "o.eps" ["r;a;b;c;d;e;f;g;h;i;j", "1;1;1;1;1;1;1;1;1;1;1"] =
      .error .indexError := by
  with_unfolding_all decide

/-- C8 amended: the `j`-th plotted series uses linestyle `dots[j]` by plain
direct indexing (so a successful run never has more than 9 plotted series;
beyond that the script aborts with IndexError instead of cycling). -/
theorem linestyle_direct_index (outname : String) (lines : List String)
    (plots : List PlotCall) (names : Row) (nums : List Row)
    (hrun : run outname lines = .ok plots)
    (hdata : parseData lines = .ok (names :: nums)) :
    ∀ j p, plots.get? j = some p → dots.get? j = some p.linestyle := by
  obtain ⟨-, rhos, srpts, -, -, hcols⟩ := run_ok_col hrun hdata
  intro j p hp
  obtain ⟨seks, rs, lab, style, -, -, -, hstyle, rfl⟩ := plotCol_ok (hcols j p hp)
  have hj : 1 + j - 1 = j := by omega
  rw [hj] at hstyle
  exact hstyle

/-- C8 witness: on `linesA` the first plotted series uses `dots[0] = "-"`. -/
theorem linestyle_direct_index_witness :
    run "o.eps" linesA = .ok plotsA ∧
    parseData linesA = .ok (namesA :: numsA) ∧
    dots.get? 0 = some "-" :=
  ⟨by with_unfolding_all decide, by with_unfolding_all decide,
   linestyle_direct_index "o.eps" linesA plotsA namesA numsA
     (by with_unfolding_all decide) (by with_unfolding_all decide) 0
     ⟨[Cell.num (4/5)], [0], "SRPT", "-"⟩ (by with_unfolding_all decide)⟩

/-- C9: if a comparison column extracted from the table coincides with the
reference column (all cells numeric and nonzero), its computed ratio series
is identically 0, one entry per data row. -/
theorem equal_columns_zero_ratio (nums : List Row) (col : Nat)
    (seks : List Cell)
    (hcol : column nums col = .ok seks) (href : column nums 1 = .ok seks)
    (hnz : ∀ c ∈ seks, ∃ q, c = Cell.num q ∧ q ≠ 0) :
    ratios seks seks = .ok (List.replicate nums.length 0) := by
  have h := ratios_self_of_num seks hnz
  rw [column_ok_length hcol] at h
  exact h

/-- C9 witness: a one-row table whose column 2 equals its reference
column. -/
theorem equal_columns_zero_ratio_witness :
    column [[Cell.num 1, Cell.num 2, Cell.num 2]] 2 = .ok [Cell.num 2] ∧
    column [[Cell.num 1, Cell.num 2, Cell.num 2]] 1 = .ok [Cell.num 2] ∧
    ratios [Cell.num 2] [Cell.num 2] = .ok (List.replicate 1 0) :=
  ⟨by with_unfolding_all decide, by with_unfolding_all decide,
   equal_columns_zero_ratio [[Cell.num 1, Cell.num 2, Cell.num 2]] 2 _
     (by with_unfolding_all decide) (by with_unfolding_all decide)
     (by intro c hc; simp at hc; exact ⟨2, hc, by norm_num⟩)⟩

/-- C10: the plotting loop starts at column 1, so on any successful run with
at least one comparison column the first plotted series is the reference
column against itself — a constant-zero ratio series, drawn with the first
linestyle `"-"` and labelled with the reference column's (rewritten)
name. -/
theorem first_series_reference_self (outname : String) (lines : List String)
    (plots : List PlotCall) (names : Row) (nums : List Row)
    (hrun : run outname lines = .ok plots)
    (hdata : parseData lines = .ok (names :: nums))
    (h2 : 2 ≤ names.length) :
    ∃ p s, plots.get? 0 = some p ∧
      p.ratioSeries = List.replicate nums.length 0 ∧
      p.linestyle = "-" ∧
      names.get? 1 = some (Cell.str s) ∧
      p.label = s.replace "SRPTExcept" "SEK" := by
  obtain ⟨hlen, rhos, srpts, h0, h1, hcols⟩ := run_ok_col hrun hdata
  obtain ⟨p, hp⟩ : ∃ p, plots.get? 0 = some p := by
    cases hg : plots.get? 0 with
    | none =>
      rw [List.get?_eq_none] at hg
      omega
    | some p => exact ⟨p, rfl⟩
  have hcol := hcols 0 p hp
  rw [show 1 + 0 = 1 from rfl] at hcol
  obtain ⟨seks, rs, lab, style, hseks, hrs, hlab, hstyle, rfl⟩ := plotCol_ok hcol
  have hss : seks = srpts := by
    rw [h1] at hseks
    exact (Except.ok.inj hseks).symm
  subst hss
  have hrs0 : rs = List.replicate nums.length 0 := by
    have := ratios_self_ok_eq hrs
    rw [column_ok_length hseks] at this
    exact this
  have hstyle0 : style = "-" := by
    simp [dots] at hstyle
    exact hstyle.symm
  obtain ⟨s, hso, hslab⟩ := cellLabel_ok hlab
  exact ⟨⟨rhos, rs, lab, style⟩, s, hp, hrs0, hstyle0, hso, hslab⟩

/-- C10 witness: on `linesA` the first plotted series is the reference
column `SRPT` against itself: ratio series `[0]`, linestyle `"-"`, label
`SRPT`. -/
theorem first_series_reference_self_witness :
    run "o.eps" linesA = .ok plotsA ∧
    parseData linesA = .ok (namesA :: numsA) ∧
    2 ≤ namesA.length ∧
    (∃ p s, plotsA.get? 0 = some p ∧
      p.ratioSeries = List.replicate numsA.length 0 ∧
      p.linestyle = "-" ∧
      namesA.get? 1 = some (Cell.str s) ∧
      p.label = s.replace "SRPTExcept" "SEK") :=
  ⟨by with_unfolding_all decide, by with_unfolding_all decide,
   by with_unfolding_all decide,
   first_series_reference_self "o.eps" linesA plotsA namesA numsA
     (by with_unfolding_all decide) (by with_unfolding_all decide)
     (by with_unfolding_all decide)⟩
